import Mathlib

/-!
# FairGradeForge: a shallow embedding of `src/contracts/FairGradeForge.sol`

The contract coordinates assignment creation, encrypted submission and
encrypted grading.  Addresses, timestamps and encrypted-value handles are
modelled as `Nat`; `block.timestamp` and `msg.sender` become explicit `now`
and `caller` arguments.  Solidity mappings become total functions returning
zero-initialised default records, exactly as the EVM storage model does; a
record's presence is signalled by its `exists` flag (here `exists'`, since
`exists` is a Lean keyword) or, for assignments, by `deadline > 0`.

Each external function of the contract becomes a Lean function returning
`SysState × Option Err`: on a `require` failure or an invalid input proof the
original state is returned together with the error (the EVM reverts the whole
transaction), on success the mutated state and `none`.  The error names follow
the specification's taxonomy; the comment at each branch quotes the `require`
message from the source it translates.

The FHE engine (`FHE.fromExternal`, `FHE.allowThis`, `FHE.allow`) is an
external collaborator: it is modelled by an input carrying a validity bit and
by an access-control list recording which principals were granted rights over
which handles.
-/

/-- The specification's error taxonomy (§7), one constructor per distinct
`require` failure of the contract plus `InvalidProof` from the FHE engine. -/
inductive Err where
  | NotFound
  | Unauthorized
  | SelfSubmissionForbidden
  | InvalidDeadline
  | EmptyTitle
  | DeadlinePassed
  | DeadlineNotPassed
  | GradingNotOpen
  | AlreadySubmitted
  | AlreadyGraded
  | AlreadyStarted
  | NoSubmission
  | InvalidProof
deriving DecidableEq, Repr

/-- The source's `struct Assignment` (`id`, `title`, `requirements`,
`deadline`, `teacher`, `submissionCount`, `isGrading`). -/
structure Assignment where
  id : Nat
  title : String
  requirements : String
  deadline : Nat
  teacher : Nat
  submissionCount : Nat
  isGrading : Bool
deriving DecidableEq, Repr

/-- The zero-initialised assignment record a Solidity mapping returns for an
unallocated id. -/
def defaultAssignment : Assignment :=
  ⟨0, "", "", 0, 0, 0, false⟩

/-- The source's `struct Submission`; `exists'` is the source's `exists`. -/
structure Submission where
  student : Nat
  encryptedAnswer : Nat
  timestamp : Nat
  exists' : Bool
deriving DecidableEq, Repr

/-- The zero-initialised submission record. -/
def defaultSubmission : Submission :=
  ⟨0, 0, 0, false⟩

/-- The source's `struct Grade`; `exists'` is the source's `exists`. -/
structure Grade where
  encryptedScore : Nat
  timestamp : Nat
  exists' : Bool
deriving DecidableEq, Repr

/-- The zero-initialised grade record. -/
def defaultGrade : Grade :=
  ⟨0, 0, false⟩

/-- An `externalEuint32` together with its input proof: the handle value and
whether the FHE engine accepts the proof. -/
structure ExternalEuint32 where
  val : Nat
  proofValid : Bool
deriving DecidableEq, Repr

/-- The observable state of the external FHE engine: which handles the
contract itself may use (`FHE.allowThis`) and which (handle, principal) grants
were issued (`FHE.allow`). -/
structure FheAcl where
  thisAllowed : List Nat
  allowed : List (Nat × Nat)
deriving DecidableEq, Repr

namespace FHE

/-- Model of `FHE.fromExternal`: ingestion of an external ciphertext; yields the handle
when the proof verifies and fails (reverting the transaction) otherwise. -/
def fromExternal (e : ExternalEuint32) : Option Nat :=
  if e.proofValid then some e.val else none

/-- Model of `FHE.allowThis`: grant the contract itself rights over a handle. -/
def allowThis (h : Nat) (acl : FheAcl) : FheAcl :=
  { acl with thisAllowed := h :: acl.thisAllowed }

/-- Model of `FHE.allow`: grant a principal decryption rights over a handle. -/
def allow (h : Nat) (principal : Nat) (acl : FheAcl) : FheAcl :=
  { acl with allowed := (h, principal) :: acl.allowed }

end FHE

/-- The full storage of the contract: the `teacher` address, the three
mappings, the `totalAssignments` counter, plus the FHE engine's grant state. -/
structure SysState where
  teacher : Nat
  assignments : Nat → Assignment
  submissions : Nat → Nat → Submission
  grades : Nat → Nat → Grade
  totalAssignments : Nat
  fhe : FheAcl

/-- The constructor: `teacher = msg.sender`, all mappings empty. -/
def initState (deployer : Nat) : SysState :=
  { teacher := deployer
    assignments := fun _ => defaultAssignment
    submissions := fun _ _ => defaultSubmission
    grades := fun _ _ => defaultGrade
    totalAssignments := 0
    fhe := ⟨[], []⟩ }

/-- Operation `createAssignment(title, requirements, deadline)` with the `onlyTeacher`
modifier.  Checks, in source order: caller is the teacher ("Only teacher can
call this function"), `deadline > block.timestamp` ("Deadline must be in the
future"), nonempty title ("Title cannot be empty"); then allocates the next
sequential id and stores the record with `submissionCount = 0` and
`isGrading = false`. -/
def createAssignment (s : SysState) (caller now : Nat)
    (title requirements : String) (deadline : Nat) : SysState × Option Err :=
  if caller ≠ s.teacher then (s, some Err.Unauthorized)
  else if ¬ deadline > now then (s, some Err.InvalidDeadline)
  else if ¬ title.length > 0 then (s, some Err.EmptyTitle)
  else
    let assignmentId := s.totalAssignments
    let asg : Assignment :=
      { id := assignmentId
        title := title
        requirements := requirements
        deadline := deadline
        teacher := caller
        submissionCount := 0
        isGrading := false }
    ({ s with
        totalAssignments := s.totalAssignments + 1
        assignments := fun a => if a = assignmentId then asg else s.assignments a },
     none)

/-- Operation `submitAssignment(assignmentId, encryptedAnswer, inputProof)` with the
`onlyStudent` modifier.  Checks, in source order: caller is not the teacher
("Teacher cannot submit assignments", the modifier, which runs before the
body), assignment exists ("Assignment does not exist", `deadline > 0`),
`block.timestamp < deadline` ("Deadline has passed"), no prior submission
("Already submitted"); then ingests the ciphertext (failing with
`InvalidProof` if the proof is rejected), grants the contract and the teacher
rights over the handle, stores the submission and increments the assignment's
`submissionCount`. -/
def submitAssignment (s : SysState) (caller now : Nat) (assignmentId : Nat)
    (encryptedAnswer : ExternalEuint32) : SysState × Option Err :=
  if caller = s.teacher then (s, some Err.SelfSubmissionForbidden)
  else
    let assignment := s.assignments assignmentId
    if ¬ assignment.deadline > 0 then (s, some Err.NotFound)
    else if ¬ now < assignment.deadline then (s, some Err.DeadlinePassed)
    else if (s.submissions assignmentId caller).exists' then (s, some Err.AlreadySubmitted)
    else
      match FHE.fromExternal encryptedAnswer with
      | none => (s, some Err.InvalidProof)
      | some h =>
        let acl := FHE.allow h s.teacher (FHE.allowThis h s.fhe)
        let sub : Submission :=
          { student := caller, encryptedAnswer := h, timestamp := now, exists' := true }
        ({ s with
            fhe := acl
            submissions := fun a st =>
              if a = assignmentId ∧ st = caller then sub else s.submissions a st
            assignments := fun a =>
              if a = assignmentId then
                { assignment with submissionCount := assignment.submissionCount + 1 }
              else s.assignments a },
         none)

/-- Operation `startGrading(assignmentId)` with the `onlyTeacher` modifier.  Checks:
caller is the teacher, assignment exists, `block.timestamp >= deadline`
("Deadline has not passed"), not already started ("Grading already started");
then latches `isGrading := true`. -/
def startGrading (s : SysState) (caller now : Nat) (assignmentId : Nat) :
    SysState × Option Err :=
  if caller ≠ s.teacher then (s, some Err.Unauthorized)
  else
    let assignment := s.assignments assignmentId
    if ¬ assignment.deadline > 0 then (s, some Err.NotFound)
    else if ¬ now ≥ assignment.deadline then (s, some Err.DeadlineNotPassed)
    else if assignment.isGrading then (s, some Err.AlreadyStarted)
    else
      ({ s with
          assignments := fun a =>
            if a = assignmentId then { assignment with isGrading := true }
            else s.assignments a },
       none)

/-- Operation `gradeSubmission(assignmentId, student, encryptedScore, inputProof)` with
the `onlyTeacher` modifier.  Checks, in source order: caller is the teacher,
assignment exists, `block.timestamp >= deadline` ("Deadline has not passed",
the spec's `GradingNotOpen`), a submission exists for the student
("Submission does not exist"), no prior grade ("Already graded"); then ingests
the score, grants the contract and the student rights over the handle and
stores the grade.  Note that `isGrading` is never consulted. -/
def gradeSubmission (s : SysState) (caller now : Nat) (assignmentId student : Nat)
    (encryptedScore : ExternalEuint32) : SysState × Option Err :=
  if caller ≠ s.teacher then (s, some Err.Unauthorized)
  else
    let assignment := s.assignments assignmentId
    if ¬ assignment.deadline > 0 then (s, some Err.NotFound)
    else if ¬ now ≥ assignment.deadline then (s, some Err.GradingNotOpen)
    else if ¬ (s.submissions assignmentId student).exists' then (s, some Err.NoSubmission)
    else if (s.grades assignmentId student).exists' then (s, some Err.AlreadyGraded)
    else
      match FHE.fromExternal encryptedScore with
      | none => (s, some Err.InvalidProof)
      | some h =>
        let acl := FHE.allow h student (FHE.allowThis h s.fhe)
        let grd : Grade := { encryptedScore := h, timestamp := now, exists' := true }
        ({ s with
            fhe := acl
            grades := fun a st =>
              if a = assignmentId ∧ st = student then grd else s.grades a st },
         none)

/-- Getter `getAssignment(assignmentId)`: the only getter with an existence check
("Assignment does not exist"). -/
def getAssignment (s : SysState) (assignmentId : Nat) :
    Except Err (String × String × Nat × Nat × Bool) :=
  let assignment := s.assignments assignmentId
  if ¬ assignment.deadline > 0 then Except.error Err.NotFound
  else Except.ok (assignment.title, assignment.requirements, assignment.deadline,
    assignment.submissionCount, assignment.isGrading)

/-- Getter `getSubmission(assignmentId, student)`: total, no existence check; returns
`(encryptedAnswer, timestamp, exists)` straight from storage. -/
def getSubmission (s : SysState) (assignmentId student : Nat) : Nat × Nat × Bool :=
  let sub := s.submissions assignmentId student
  (sub.encryptedAnswer, sub.timestamp, sub.exists')

/-- Getter `getGrade(assignmentId, student)`: total, no existence check; returns
`(encryptedScore, timestamp, exists)` straight from storage. -/
def getGrade (s : SysState) (assignmentId student : Nat) : Nat × Nat × Bool :=
  let grd := s.grades assignmentId student
  (grd.encryptedScore, grd.timestamp, grd.exists')

/-- Getter `hasSubmitted(assignmentId, student)`: total. -/
def hasSubmitted (s : SysState) (assignmentId student : Nat) : Bool :=
  (s.submissions assignmentId student).exists'

/-- Getter `hasGrade(assignmentId, student)`: total. -/
def hasGrade (s : SysState) (assignmentId student : Nat) : Bool :=
  (s.grades assignmentId student).exists'

example :
    (submitAssignment (initState 7) 1 50 0 ⟨42, true⟩).2 = some Err.NotFound := by
  decide

example :
    (createAssignment (initState 7) 7 0 "hw1" "essay" 100).2 = none := by
  decide

example :
    (submitAssignment (createAssignment (initState 7) 7 0 "hw1" "essay" 100).1
      1 50 0 ⟨42, true⟩).2 = none := by
  decide

/-! ## The inductive invariant

`ContractInv d t s` collects everything that holds of the contract storage after any
sequence of calls when the contract was deployed by `d` and the latest block
timestamp is at most `t`.  It is proved by induction over `Reachable`. -/

/-- The inductive invariant of the contract at deployer `d` and current time
bound `t`. -/
structure ContractInv (d t : Nat) (s : SysState) : Prop where
  teacher_eq : s.teacher = d
  fresh : ∀ a, s.totalAssignments ≤ a → s.assignments a = defaultAssignment
  asg_teacher : ∀ a, (s.assignments a).deadline > 0 → (s.assignments a).teacher = d
  sub_asg : ∀ a st, (s.submissions a st).exists' = true → (s.assignments a).deadline > 0
  sub_default : ∀ a st, (s.submissions a st).exists' = false →
      s.submissions a st = defaultSubmission
  sub_student : ∀ a st, (s.submissions a st).exists' = true →
      (s.submissions a st).student = st
  sub_not_teacher : ∀ a st, (s.submissions a st).exists' = true → st ≠ d
  sub_deadline : ∀ a st, (s.submissions a st).exists' = true →
      (s.submissions a st).timestamp < (s.assignments a).deadline
  sub_time : ∀ a st, (s.submissions a st).exists' = true →
      (s.submissions a st).timestamp ≤ t
  grade_sub : ∀ a st, (s.grades a st).exists' = true → (s.submissions a st).exists' = true
  grade_default : ∀ a st, (s.grades a st).exists' = false → s.grades a st = defaultGrade
  grade_deadline : ∀ a st, (s.grades a st).exists' = true →
      (s.assignments a).deadline ≤ (s.grades a st).timestamp
  grade_time : ∀ a st, (s.grades a st).exists' = true → (s.grades a st).timestamp ≤ t
  count_eq : ∀ a, ∃ fs : Finset Nat,
      (∀ st, st ∈ fs ↔ (s.submissions a st).exists' = true) ∧
      fs.card = (s.assignments a).submissionCount

/-- The deployed state satisfies the invariant. -/
theorem initState_inv (d t : Nat) : ContractInv d t (initState d) := by
  constructor <;>
    simp [initState, defaultAssignment, defaultSubmission, defaultGrade]

/-- The invariant is monotone in the time bound. -/
theorem inv_tick {d t t' : Nat} {s : SysState} (hInv : ContractInv d t s) (ht : t ≤ t') :
    ContractInv d t' s := by
  refine ⟨hInv.teacher_eq, hInv.fresh, hInv.asg_teacher, hInv.sub_asg, hInv.sub_default,
    hInv.sub_student, hInv.sub_not_teacher, hInv.sub_deadline, ?_, hInv.grade_sub,
    hInv.grade_default, hInv.grade_deadline, ?_, hInv.count_eq⟩
  · exact fun a st h => le_trans (hInv.sub_time a st h) ht
  · exact fun a st h => le_trans (hInv.grade_time a st h) ht

/-- An assignment with a nonzero deadline has an allocated id. -/
theorem inv_exists_lt {d t : Nat} {s : SysState} (hInv : ContractInv d t s) (a : Nat)
    (h : (s.assignments a).deadline > 0) : a < s.totalAssignments := by
  by_contra hc
  have := hInv.fresh a (le_of_not_lt hc)
  rw [this] at h
  simp [defaultAssignment] at h

/-- No submission is stored under a not-yet-allocated assignment id. -/
theorem inv_no_sub_fresh {d t : Nat} {s : SysState} (hInv : ContractInv d t s)
    (a st : Nat) (ha : s.totalAssignments ≤ a) :
    ¬ (s.submissions a st).exists' = true := by
  intro hst
  have h := hInv.sub_asg a st hst
  rw [hInv.fresh a ha] at h
  simp [defaultAssignment] at h

/-! ## Success and failure equations for the operations -/

/-- On success, `createAssignment` allocates id `totalAssignments`, stores the
new record there and bumps the counter; nothing else changes. -/
theorem createAssignment_success (s : SysState) (caller now : Nat)
    (title requirements : String) (deadline : Nat)
    (h1 : caller = s.teacher) (h2 : deadline > now) (h3 : title.length > 0) :
    createAssignment s caller now title requirements deadline =
      ({ s with
          totalAssignments := s.totalAssignments + 1
          assignments := fun a => if a = s.totalAssignments then
              { id := s.totalAssignments, title := title, requirements := requirements,
                deadline := deadline, teacher := caller, submissionCount := 0,
                isGrading := false }
            else s.assignments a }, none) := by
  simp [createAssignment, h1, h2, h3]

/-- Operation `createAssignment` preserves the invariant. -/
theorem createAssignment_inv {d t : Nat} {s : SysState} (hInv : ContractInv d t s)
    (caller now : Nat) (title requirements : String) (deadline : Nat) :
    ContractInv d t (createAssignment s caller now title requirements deadline).1 := by
  by_cases h1 : caller = s.teacher
  · by_cases h2 : deadline > now
    · by_cases h3 : title.length > 0
      · rw [createAssignment_success s caller now title requirements deadline h1 h2 h3]
        dsimp only
        refine ⟨hInv.teacher_eq, ?_, ?_, ?_, hInv.sub_default, hInv.sub_student,
          hInv.sub_not_teacher, ?_, hInv.sub_time, hInv.grade_sub, hInv.grade_default,
          ?_, hInv.grade_time, ?_⟩
        · intro a ha
          replace ha : s.totalAssignments + 1 ≤ a := ha
          have hne : a ≠ s.totalAssignments := by omega
          simp only [hne, if_false]
          exact hInv.fresh a (by omega)
        · intro a ha
          by_cases he : a = s.totalAssignments
          · subst he
            simp only [if_pos rfl]
            rw [h1]
            exact hInv.teacher_eq
          · simp only [he, if_false] at ha ⊢
            exact hInv.asg_teacher a ha
        · intro a st hst
          by_cases he : a = s.totalAssignments
          · subst he
            simp only [if_pos rfl]
            exact Nat.zero_lt_of_lt h2
          · simp only [he, if_false]
            exact hInv.sub_asg a st hst
        · intro a st hst
          by_cases he : a = s.totalAssignments
          · exact absurd hst (inv_no_sub_fresh hInv a st (le_of_eq he.symm))
          · simp only [he, if_false]
            exact hInv.sub_deadline a st hst
        · intro a st hst
          by_cases he : a = s.totalAssignments
          · exact absurd (hInv.grade_sub a st hst)
              (inv_no_sub_fresh hInv a st (le_of_eq he.symm))
          · simp only [he, if_false]
            exact hInv.grade_deadline a st hst
        · intro a
          by_cases he : a = s.totalAssignments
          · subst he
            refine ⟨∅, fun st => ?_, by simp⟩
            simp only [Finset.not_mem_empty, false_iff]
            exact inv_no_sub_fresh hInv s.totalAssignments st le_rfl
          · obtain ⟨fs, hmem, hcard⟩ := hInv.count_eq a
            exact ⟨fs, hmem, by simp only [he, if_false]; exact hcard⟩
      · simp only [createAssignment, h3, ite_true, ite_false, not_false_iff, if_pos,
          if_neg, not_true]
        simp [h1, h2, h3]
        exact hInv
    · simp [createAssignment, h1, h2]
      exact hInv
  · simp [createAssignment, h1]
    exact hInv

/-- The `onlyStudent` modifier runs before the body: the teacher always gets
`SelfSubmissionForbidden` from `submitAssignment`, whatever the other
arguments. -/
theorem submitAssignment_self (s : SysState) (caller now aid : Nat)
    (v : ExternalEuint32) (h1 : caller = s.teacher) :
    submitAssignment s caller now aid v = (s, some Err.SelfSubmissionForbidden) := by
  simp [submitAssignment, h1]

/-- A non-teacher caller on a nonexistent assignment gets `NotFound`. -/
theorem submitAssignment_notfound (s : SysState) (caller now aid : Nat)
    (v : ExternalEuint32) (h1 : caller ≠ s.teacher)
    (h2 : ¬ (s.assignments aid).deadline > 0) :
    submitAssignment s caller now aid v = (s, some Err.NotFound) := by
  simp [submitAssignment, h1, h2]

/-- A non-teacher caller at or after the deadline gets `DeadlinePassed`. -/
theorem submitAssignment_deadline (s : SysState) (caller now aid : Nat)
    (v : ExternalEuint32) (h1 : caller ≠ s.teacher)
    (h2 : (s.assignments aid).deadline > 0)
    (h3 : ¬ now < (s.assignments aid).deadline) :
    submitAssignment s caller now aid v = (s, some Err.DeadlinePassed) := by
  simp [submitAssignment, h1, h2, h3]

/-- A repeated submission before the deadline gets `AlreadySubmitted`. -/
theorem submitAssignment_already (s : SysState) (caller now aid : Nat)
    (v : ExternalEuint32) (h1 : caller ≠ s.teacher)
    (h2 : (s.assignments aid).deadline > 0)
    (h3 : now < (s.assignments aid).deadline)
    (h4 : (s.submissions aid caller).exists' = true) :
    submitAssignment s caller now aid v = (s, some Err.AlreadySubmitted) := by
  simp [submitAssignment, h1, h2, h3, h4]

/-- A rejected input proof aborts the submission with `InvalidProof`. -/
theorem submitAssignment_badproof (s : SysState) (caller now aid : Nat)
    (v : ExternalEuint32) (h1 : caller ≠ s.teacher)
    (h2 : (s.assignments aid).deadline > 0)
    (h3 : now < (s.assignments aid).deadline)
    (h4 : (s.submissions aid caller).exists' = false)
    (h5 : v.proofValid = false) :
    submitAssignment s caller now aid v = (s, some Err.InvalidProof) := by
  simp [submitAssignment, h1, h2, h3, h4, FHE.fromExternal, h5]

/-- On success, `submitAssignment` stores the submission under
`(assignmentId, caller)`, increments that assignment's `submissionCount`,
grants the contract and the teacher rights over the new handle, and changes
nothing else. -/
theorem submitAssignment_success (s : SysState) (caller now aid : Nat)
    (v : ExternalEuint32) (h1 : caller ≠ s.teacher)
    (h2 : (s.assignments aid).deadline > 0)
    (h3 : now < (s.assignments aid).deadline)
    (h4 : (s.submissions aid caller).exists' = false)
    (h5 : v.proofValid = true) :
    submitAssignment s caller now aid v =
      ({ s with
          fhe := FHE.allow v.val s.teacher (FHE.allowThis v.val s.fhe)
          submissions := fun a st =>
            if a = aid ∧ st = caller then
              { student := caller, encryptedAnswer := v.val, timestamp := now,
                exists' := true }
            else s.submissions a st
          assignments := fun a =>
            if a = aid then
              { s.assignments aid with
                  submissionCount := (s.assignments aid).submissionCount + 1 }
            else s.assignments a }, none) := by
  simp [submitAssignment, h1, h2, h3, h4, FHE.fromExternal, h5]

/-- Operation `submitAssignment` preserves the invariant (for a call at a time within
the current bound). -/
theorem submitAssignment_inv {d t : Nat} {s : SysState} (hInv : ContractInv d t s)
    {now : Nat} (caller aid : Nat) (v : ExternalEuint32) (hnow : now ≤ t) :
    ContractInv d t (submitAssignment s caller now aid v).1 := by
  by_cases h1 : caller = s.teacher
  · rw [submitAssignment_self s caller now aid v h1]
    exact hInv
  by_cases h2 : (s.assignments aid).deadline > 0
  case neg =>
    rw [submitAssignment_notfound s caller now aid v h1 h2]
    exact hInv
  by_cases h3 : now < (s.assignments aid).deadline
  case neg =>
    rw [submitAssignment_deadline s caller now aid v h1 h2 h3]
    exact hInv
  by_cases h4' : (s.submissions aid caller).exists' = true
  case pos =>
    rw [submitAssignment_already s caller now aid v h1 h2 h3 h4']
    exact hInv
  have h4 : (s.submissions aid caller).exists' = false := by
    cases hb : (s.submissions aid caller).exists'
    · rfl
    · exact absurd hb h4'
  by_cases h5 : v.proofValid = true
  case neg =>
    have h5' : v.proofValid = false := by
      cases hb : v.proofValid
      · rfl
      · exact absurd hb h5
    rw [submitAssignment_badproof s caller now aid v h1 h2 h3 h4 h5']
    exact hInv
  rw [submitAssignment_success s caller now aid v h1 h2 h3 h4 h5]
  dsimp only
  have hlt : aid < s.totalAssignments := inv_exists_lt hInv aid h2
  refine ⟨hInv.teacher_eq, ?_, ?_, ?_, ?_, ?_, ?_, ?_, ?_, ?_, hInv.grade_default,
    ?_, hInv.grade_time, ?_⟩
  · -- fresh
    intro a ha
    replace ha : s.totalAssignments ≤ a := ha
    have hne : a ≠ aid := by omega
    simp only [hne, if_false]
    exact hInv.fresh a ha
  · -- asg_teacher
    intro a ha
    by_cases he : a = aid
    · subst he
      simp only [if_pos rfl] at ha ⊢
      exact hInv.asg_teacher a ha
    · simp only [he, if_false] at ha ⊢
      exact hInv.asg_teacher a ha
  · -- sub_asg
    intro a st hst
    by_cases he : a = aid
    · subst he
      simp only [if_pos rfl]
      exact h2
    · simp only [he, if_false] at hst ⊢
      simp only [false_and, if_false] at hst
      exact hInv.sub_asg a st hst
  · -- sub_default
    intro a st hst
    by_cases he : a = aid ∧ st = caller
    · simp only [if_pos he] at hst
      cases hst
    · simp only [if_neg he] at hst ⊢
      exact hInv.sub_default a st hst
  · -- sub_student
    intro a st hst
    by_cases he : a = aid ∧ st = caller
    · simp only [if_pos he]
      exact he.2.symm
    · simp only [if_neg he] at hst ⊢
      exact hInv.sub_student a st hst
  · -- sub_not_teacher
    intro a st hst
    by_cases he : a = aid ∧ st = caller
    · rw [he.2]
      rw [hInv.teacher_eq] at h1
      exact h1
    · simp only [if_neg he] at hst
      exact hInv.sub_not_teacher a st hst
  · -- sub_deadline
    intro a st hst
    by_cases he : a = aid ∧ st = caller
    · obtain ⟨hea, hes⟩ := he
      subst hea
      subst hes
      simp only [if_pos, and_self, if_pos rfl]
      exact h3
    · simp only [if_neg he] at hst ⊢
      by_cases hea : a = aid
      · subst hea
        simp only [if_pos rfl]
        exact hInv.sub_deadline a st hst
      · simp only [hea, if_false]
        exact hInv.sub_deadline a st hst
  · -- sub_time
    intro a st hst
    by_cases he : a = aid ∧ st = caller
    · simp only [if_pos he]
      exact hnow
    · simp only [if_neg he] at hst ⊢
      exact hInv.sub_time a st hst
  · -- grade_sub
    intro a st hst
    by_cases he : a = aid ∧ st = caller
    · simp only [if_pos he]
    · simp only [if_neg he]
      exact hInv.grade_sub a st hst
  · -- grade_deadline
    intro a st hst
    by_cases hea : a = aid
    · subst hea
      simp only [if_pos rfl]
      exact hInv.grade_deadline a st hst
    · simp only [hea, if_false]
      exact hInv.grade_deadline a st hst
  · -- count_eq
    intro a
    by_cases hea : a = aid
    · subst hea
      obtain ⟨fs, hmem, hcard⟩ := hInv.count_eq a
      refine ⟨insert caller fs, ?_, ?_⟩
      · intro st
        rw [Finset.mem_insert]
        by_cases hes : st = caller
        · subst hes
          simp only [and_self, if_pos rfl, true_or, true_iff]
          rfl
        · have hne : ¬ (a = a ∧ st = caller) := fun hc => hes hc.2
          simp only [if_neg hne, hes, false_or]
          exact hmem st
      · have hnot : caller ∉ fs := fun hc => by
          rw [hmem caller] at hc
          rw [h4] at hc
          cases hc
        rw [Finset.card_insert_of_not_mem hnot]
        simp [hcard]
    · obtain ⟨fs, hmem, hcard⟩ := hInv.count_eq a
      refine ⟨fs, ?_, ?_⟩
      · intro st
        have hne : ¬ (a = aid ∧ st = caller) := fun hc => hea hc.1
        simp only [if_neg hne]
        exact hmem st
      · simp only [hea, if_false]
        exact hcard

/-- Operation `startGrading` by a non-teacher gets `Unauthorized`. -/
theorem startGrading_unauth (s : SysState) (caller now aid : Nat)
    (h1 : caller ≠ s.teacher) :
    startGrading s caller now aid = (s, some Err.Unauthorized) := by
  simp [startGrading, h1]

/-- Operation `startGrading` on a nonexistent assignment gets `NotFound`. -/
theorem startGrading_notfound (s : SysState) (caller now aid : Nat)
    (h1 : caller = s.teacher) (h2 : ¬ (s.assignments aid).deadline > 0) :
    startGrading s caller now aid = (s, some Err.NotFound) := by
  simp [startGrading, h1, h2]

/-- Operation `startGrading` before the deadline gets `DeadlineNotPassed`. -/
theorem startGrading_early (s : SysState) (caller now aid : Nat)
    (h1 : caller = s.teacher) (h2 : (s.assignments aid).deadline > 0)
    (h3 : ¬ now ≥ (s.assignments aid).deadline) :
    startGrading s caller now aid = (s, some Err.DeadlineNotPassed) := by
  simp [startGrading, h1, h2, h3]

/-- Operation `startGrading` twice gets `AlreadyStarted`. -/
theorem startGrading_twice (s : SysState) (caller now aid : Nat)
    (h1 : caller = s.teacher) (h2 : (s.assignments aid).deadline > 0)
    (h3 : now ≥ (s.assignments aid).deadline)
    (h4 : (s.assignments aid).isGrading = true) :
    startGrading s caller now aid = (s, some Err.AlreadyStarted) := by
  simp [startGrading, h1, h2, h3, h4]

/-- On success, `startGrading` only latches `isGrading` of that assignment. -/
theorem startGrading_success (s : SysState) (caller now aid : Nat)
    (h1 : caller = s.teacher) (h2 : (s.assignments aid).deadline > 0)
    (h3 : now ≥ (s.assignments aid).deadline)
    (h4 : (s.assignments aid).isGrading = false) :
    startGrading s caller now aid =
      ({ s with
          assignments := fun a =>
            if a = aid then { s.assignments aid with isGrading := true }
            else s.assignments a }, none) := by
  simp [startGrading, h1, h2, h3, h4]

/-- Operation `startGrading` preserves the invariant. -/
theorem startGrading_inv {d t : Nat} {s : SysState} (hInv : ContractInv d t s)
    (caller now aid : Nat) :
    ContractInv d t (startGrading s caller now aid).1 := by
  by_cases h1 : caller = s.teacher
  case neg =>
    rw [startGrading_unauth s caller now aid h1]
    exact hInv
  by_cases h2 : (s.assignments aid).deadline > 0
  case neg =>
    rw [startGrading_notfound s caller now aid h1 h2]
    exact hInv
  by_cases h3 : now ≥ (s.assignments aid).deadline
  case neg =>
    rw [startGrading_early s caller now aid h1 h2 h3]
    exact hInv
  by_cases h4 : (s.assignments aid).isGrading = true
  case pos =>
    rw [startGrading_twice s caller now aid h1 h2 h3 h4]
    exact hInv
  have h4' : (s.assignments aid).isGrading = false := by
    cases hb : (s.assignments aid).isGrading
    · rfl
    · exact absurd hb h4
  rw [startGrading_success s caller now aid h1 h2 h3 h4']
  dsimp only
  have hlt : aid < s.totalAssignments := inv_exists_lt hInv aid h2
  have hdl : ∀ a, ((if a = aid then { s.assignments aid with isGrading := true }
      else s.assignments a) : Assignment).deadline = (s.assignments a).deadline := by
    intro a
    by_cases he : a = aid
    · subst he
      simp
    · simp [he]
  refine ⟨hInv.teacher_eq, ?_, ?_, ?_, hInv.sub_default, hInv.sub_student,
    hInv.sub_not_teacher, ?_, hInv.sub_time, hInv.grade_sub, hInv.grade_default,
    ?_, hInv.grade_time, ?_⟩
  · intro a ha
    replace ha : s.totalAssignments ≤ a := ha
    have hne : a ≠ aid := by omega
    simp only [hne, if_false]
    exact hInv.fresh a ha
  · intro a ha
    rw [hdl a] at ha
    by_cases he : a = aid
    · subst he
      simp only [if_pos rfl]
      exact hInv.asg_teacher a ha
    · simp only [he, if_false]
      exact hInv.asg_teacher a ha
  · intro a st hst
    rw [hdl a]
    exact hInv.sub_asg a st hst
  · intro a st hst
    rw [hdl a]
    exact hInv.sub_deadline a st hst
  · intro a st hst
    rw [hdl a]
    exact hInv.grade_deadline a st hst
  · intro a
    obtain ⟨fs, hmem, hcard⟩ := hInv.count_eq a
    refine ⟨fs, hmem, ?_⟩
    by_cases he : a = aid
    · subst he
      simp only [if_pos rfl]
      exact hcard
    · simp only [he, if_false]
      exact hcard

/-- Operation `gradeSubmission` by a non-teacher gets `Unauthorized`. -/
theorem gradeSubmission_unauth (s : SysState) (caller now aid st0 : Nat)
    (v : ExternalEuint32) (h1 : caller ≠ s.teacher) :
    gradeSubmission s caller now aid st0 v = (s, some Err.Unauthorized) := by
  simp [gradeSubmission, h1]

/-- Operation `gradeSubmission` on a nonexistent assignment gets `NotFound`. -/
theorem gradeSubmission_notfound (s : SysState) (caller now aid st0 : Nat)
    (v : ExternalEuint32) (h1 : caller = s.teacher)
    (h2 : ¬ (s.assignments aid).deadline > 0) :
    gradeSubmission s caller now aid st0 v = (s, some Err.NotFound) := by
  simp [gradeSubmission, h1, h2]

/-- Operation `gradeSubmission` strictly before the deadline gets `GradingNotOpen`. -/
theorem gradeSubmission_notopen (s : SysState) (caller now aid st0 : Nat)
    (v : ExternalEuint32) (h1 : caller = s.teacher)
    (h2 : (s.assignments aid).deadline > 0)
    (h3 : ¬ now ≥ (s.assignments aid).deadline) :
    gradeSubmission s caller now aid st0 v = (s, some Err.GradingNotOpen) := by
  simp [gradeSubmission, h1, h2, h3]

/-- Operation `gradeSubmission` without a stored submission gets `NoSubmission`. -/
theorem gradeSubmission_nosub (s : SysState) (caller now aid st0 : Nat)
    (v : ExternalEuint32) (h1 : caller = s.teacher)
    (h2 : (s.assignments aid).deadline > 0)
    (h3 : now ≥ (s.assignments aid).deadline)
    (h4 : ¬ (s.submissions aid st0).exists' = true) :
    gradeSubmission s caller now aid st0 v = (s, some Err.NoSubmission) := by
  simp [gradeSubmission, h1, h2, h3, h4]

/-- Operation `gradeSubmission` twice for the same key gets `AlreadyGraded`. -/
theorem gradeSubmission_already (s : SysState) (caller now aid st0 : Nat)
    (v : ExternalEuint32) (h1 : caller = s.teacher)
    (h2 : (s.assignments aid).deadline > 0)
    (h3 : now ≥ (s.assignments aid).deadline)
    (h4 : (s.submissions aid st0).exists' = true)
    (h5 : (s.grades aid st0).exists' = true) :
    gradeSubmission s caller now aid st0 v = (s, some Err.AlreadyGraded) := by
  simp [gradeSubmission, h1, h2, h3, h4, h5]

/-- A rejected score proof aborts grading with `InvalidProof`. -/
theorem gradeSubmission_badproof (s : SysState) (caller now aid st0 : Nat)
    (v : ExternalEuint32) (h1 : caller = s.teacher)
    (h2 : (s.assignments aid).deadline > 0)
    (h3 : now ≥ (s.assignments aid).deadline)
    (h4 : (s.submissions aid st0).exists' = true)
    (h5 : (s.grades aid st0).exists' = false)
    (h6 : v.proofValid = false) :
    gradeSubmission s caller now aid st0 v = (s, some Err.InvalidProof) := by
  simp [gradeSubmission, h1, h2, h3, h4, h5, FHE.fromExternal, h6]

/-- On success, `gradeSubmission` stores the grade under
`(assignmentId, student)`, grants the contract and the student rights over the
new handle, and changes nothing else — in particular it does not read or
write `isGrading`. -/
theorem gradeSubmission_success (s : SysState) (caller now aid st0 : Nat)
    (v : ExternalEuint32) (h1 : caller = s.teacher)
    (h2 : (s.assignments aid).deadline > 0)
    (h3 : now ≥ (s.assignments aid).deadline)
    (h4 : (s.submissions aid st0).exists' = true)
    (h5 : (s.grades aid st0).exists' = false)
    (h6 : v.proofValid = true) :
    gradeSubmission s caller now aid st0 v =
      ({ s with
          fhe := FHE.allow v.val st0 (FHE.allowThis v.val s.fhe)
          grades := fun a st =>
            if a = aid ∧ st = st0 then
              { encryptedScore := v.val, timestamp := now, exists' := true }
            else s.grades a st }, none) := by
  simp [gradeSubmission, h1, h2, h3, h4, h5, FHE.fromExternal, h6]

/-- Operation `gradeSubmission` preserves the invariant (for a call at a time within the
current bound). -/
theorem gradeSubmission_inv {d t : Nat} {s : SysState} (hInv : ContractInv d t s)
    {now : Nat} (caller aid st0 : Nat) (v : ExternalEuint32) (hnow : now ≤ t) :
    ContractInv d t (gradeSubmission s caller now aid st0 v).1 := by
  by_cases h1 : caller = s.teacher
  case neg =>
    rw [gradeSubmission_unauth s caller now aid st0 v h1]
    exact hInv
  by_cases h2 : (s.assignments aid).deadline > 0
  case neg =>
    rw [gradeSubmission_notfound s caller now aid st0 v h1 h2]
    exact hInv
  by_cases h3 : now ≥ (s.assignments aid).deadline
  case neg =>
    rw [gradeSubmission_notopen s caller now aid st0 v h1 h2 h3]
    exact hInv
  by_cases h4 : (s.submissions aid st0).exists' = true
  case neg =>
    rw [gradeSubmission_nosub s caller now aid st0 v h1 h2 h3 h4]
    exact hInv
  by_cases h5' : (s.grades aid st0).exists' = true
  case pos =>
    rw [gradeSubmission_already s caller now aid st0 v h1 h2 h3 h4 h5']
    exact hInv
  have h5 : (s.grades aid st0).exists' = false := by
    cases hb : (s.grades aid st0).exists'
    · rfl
    · exact absurd hb h5'
  by_cases h6 : v.proofValid = true
  case neg =>
    have h6' : v.proofValid = false := by
      cases hb : v.proofValid
      · rfl
      · exact absurd hb h6
    rw [gradeSubmission_badproof s caller now aid st0 v h1 h2 h3 h4 h5 h6']
    exact hInv
  rw [gradeSubmission_success s caller now aid st0 v h1 h2 h3 h4 h5 h6]
  dsimp only
  refine ⟨hInv.teacher_eq, hInv.fresh, hInv.asg_teacher, hInv.sub_asg,
    hInv.sub_default, hInv.sub_student, hInv.sub_not_teacher, hInv.sub_deadline,
    hInv.sub_time, ?_, ?_, ?_, ?_, hInv.count_eq⟩
  · intro a st hst
    by_cases he : a = aid ∧ st = st0
    · rw [he.1, he.2]
      exact h4
    · simp only [if_neg he] at hst
      exact hInv.grade_sub a st hst
  · intro a st hst
    by_cases he : a = aid ∧ st = st0
    · simp only [if_pos he] at hst
      cases hst
    · simp only [if_neg he] at hst ⊢
      exact hInv.grade_default a st hst
  · intro a st hst
    by_cases he : a = aid ∧ st = st0
    · obtain ⟨hea, hes⟩ := he
      subst hea
      subst hes
      simp only [and_self, if_pos rfl]
      exact h3
    · simp only [if_neg he] at hst ⊢
      exact hInv.grade_deadline a st hst
  · intro a st hst
    by_cases he : a = aid ∧ st = st0
    · simp only [if_pos he]
      exact hnow
    · simp only [if_neg he] at hst ⊢
      exact hInv.grade_time a st hst

/-! ## Failure and frame lemmas -/

/-- Operation `createAssignment` by a non-teacher gets `Unauthorized`. -/
theorem createAssignment_unauth (s : SysState) (caller now : Nat)
    (title requirements : String) (deadline : Nat) (h1 : caller ≠ s.teacher) :
    createAssignment s caller now title requirements deadline =
      (s, some Err.Unauthorized) := by
  simp [createAssignment, h1]

/-- Operation `createAssignment` with a deadline not in the future gets
`InvalidDeadline`. -/
theorem createAssignment_baddeadline (s : SysState) (caller now : Nat)
    (title requirements : String) (deadline : Nat) (h1 : caller = s.teacher)
    (h2 : ¬ deadline > now) :
    createAssignment s caller now title requirements deadline =
      (s, some Err.InvalidDeadline) := by
  simp [createAssignment, h1, h2]

/-- Operation `createAssignment` with an empty title gets `EmptyTitle`. -/
theorem createAssignment_emptytitle (s : SysState) (caller now : Nat)
    (title requirements : String) (deadline : Nat) (h1 : caller = s.teacher)
    (h2 : deadline > now) (h3 : ¬ title.length > 0) :
    createAssignment s caller now title requirements deadline =
      (s, some Err.EmptyTitle) := by
  simp [createAssignment, h1, h2, h3]

/-- A failing `createAssignment` leaves the state untouched. -/
theorem createAssignment_fail (s : SysState) (caller now : Nat)
    (title requirements : String) (deadline : Nat)
    (h : (createAssignment s caller now title requirements deadline).2 ≠ none) :
    (createAssignment s caller now title requirements deadline).1 = s := by
  by_cases h1 : caller = s.teacher
  · by_cases h2 : deadline > now
    · by_cases h3 : title.length > 0
      · rw [createAssignment_success s caller now title requirements deadline h1 h2 h3] at h
        exact absurd rfl h
      · rw [createAssignment_emptytitle s caller now title requirements deadline h1 h2 h3]
    · rw [createAssignment_baddeadline s caller now title requirements deadline h1 h2]
  · rw [createAssignment_unauth s caller now title requirements deadline h1]

/-- A failing `submitAssignment` leaves the state untouched. -/
theorem submitAssignment_fail (s : SysState) (caller now aid : Nat)
    (v : ExternalEuint32) (h : (submitAssignment s caller now aid v).2 ≠ none) :
    (submitAssignment s caller now aid v).1 = s := by
  by_cases h1 : caller = s.teacher
  case pos => rw [submitAssignment_self s caller now aid v h1]
  by_cases h2 : (s.assignments aid).deadline > 0
  case neg => rw [submitAssignment_notfound s caller now aid v h1 h2]
  by_cases h3 : now < (s.assignments aid).deadline
  case neg => rw [submitAssignment_deadline s caller now aid v h1 h2 h3]
  by_cases h4 : (s.submissions aid caller).exists' = true
  case pos => rw [submitAssignment_already s caller now aid v h1 h2 h3 h4]
  have h4' : (s.submissions aid caller).exists' = false := by
    cases hb : (s.submissions aid caller).exists'
    · rfl
    · exact absurd hb h4
  by_cases h5 : v.proofValid = true
  case neg =>
    have h5' : v.proofValid = false := by
      cases hb : v.proofValid
      · rfl
      · exact absurd hb h5
    rw [submitAssignment_badproof s caller now aid v h1 h2 h3 h4' h5']
  rw [submitAssignment_success s caller now aid v h1 h2 h3 h4' h5] at h
  exact absurd rfl h

/-- A successful `submitAssignment` passed all its checks. -/
theorem submitAssignment_ok (s : SysState) (caller now aid : Nat)
    (v : ExternalEuint32) (h : (submitAssignment s caller now aid v).2 = none) :
    caller ≠ s.teacher ∧ (s.assignments aid).deadline > 0 ∧
    now < (s.assignments aid).deadline ∧
    (s.submissions aid caller).exists' = false ∧ v.proofValid = true := by
  by_cases h1 : caller = s.teacher
  case pos => rw [submitAssignment_self s caller now aid v h1] at h; cases h
  by_cases h2 : (s.assignments aid).deadline > 0
  case neg => rw [submitAssignment_notfound s caller now aid v h1 h2] at h; cases h
  by_cases h3 : now < (s.assignments aid).deadline
  case neg => rw [submitAssignment_deadline s caller now aid v h1 h2 h3] at h; cases h
  by_cases h4 : (s.submissions aid caller).exists' = true
  case pos => rw [submitAssignment_already s caller now aid v h1 h2 h3 h4] at h; cases h
  have h4' : (s.submissions aid caller).exists' = false := by
    cases hb : (s.submissions aid caller).exists'
    · rfl
    · exact absurd hb h4
  by_cases h5 : v.proofValid = true
  case neg =>
    have h5' : v.proofValid = false := by
      cases hb : v.proofValid
      · rfl
      · exact absurd hb h5
    rw [submitAssignment_badproof s caller now aid v h1 h2 h3 h4' h5'] at h
    cases h
  exact ⟨h1, h2, h3, h4', h5⟩

/-- A failing `startGrading` leaves the state untouched. -/
theorem startGrading_fail (s : SysState) (caller now aid : Nat)
    (h : (startGrading s caller now aid).2 ≠ none) :
    (startGrading s caller now aid).1 = s := by
  by_cases h1 : caller = s.teacher
  case neg => rw [startGrading_unauth s caller now aid h1]
  by_cases h2 : (s.assignments aid).deadline > 0
  case neg => rw [startGrading_notfound s caller now aid h1 h2]
  by_cases h3 : now ≥ (s.assignments aid).deadline
  case neg => rw [startGrading_early s caller now aid h1 h2 h3]
  by_cases h4 : (s.assignments aid).isGrading = true
  case pos => rw [startGrading_twice s caller now aid h1 h2 h3 h4]
  have h4' : (s.assignments aid).isGrading = false := by
    cases hb : (s.assignments aid).isGrading
    · rfl
    · exact absurd hb h4
  rw [startGrading_success s caller now aid h1 h2 h3 h4'] at h
  exact absurd rfl h

/-- A failing `gradeSubmission` leaves the state untouched. -/
theorem gradeSubmission_fail (s : SysState) (caller now aid st0 : Nat)
    (v : ExternalEuint32) (h : (gradeSubmission s caller now aid st0 v).2 ≠ none) :
    (gradeSubmission s caller now aid st0 v).1 = s := by
  by_cases h1 : caller = s.teacher
  case neg => rw [gradeSubmission_unauth s caller now aid st0 v h1]
  by_cases h2 : (s.assignments aid).deadline > 0
  case neg => rw [gradeSubmission_notfound s caller now aid st0 v h1 h2]
  by_cases h3 : now ≥ (s.assignments aid).deadline
  case neg => rw [gradeSubmission_notopen s caller now aid st0 v h1 h2 h3]
  by_cases h4 : (s.submissions aid st0).exists' = true
  case neg => rw [gradeSubmission_nosub s caller now aid st0 v h1 h2 h3 h4]
  by_cases h5 : (s.grades aid st0).exists' = true
  case pos => rw [gradeSubmission_already s caller now aid st0 v h1 h2 h3 h4 h5]
  have h5' : (s.grades aid st0).exists' = false := by
    cases hb : (s.grades aid st0).exists'
    · rfl
    · exact absurd hb h5
  by_cases h6 : v.proofValid = true
  case neg =>
    have h6' : v.proofValid = false := by
      cases hb : v.proofValid
      · rfl
      · exact absurd hb h6
    rw [gradeSubmission_badproof s caller now aid st0 v h1 h2 h3 h4 h5' h6']
  rw [gradeSubmission_success s caller now aid st0 v h1 h2 h3 h4 h5' h6] at h
  exact absurd rfl h

/-- A successful `gradeSubmission` passed all its checks. -/
theorem gradeSubmission_ok (s : SysState) (caller now aid st0 : Nat)
    (v : ExternalEuint32) (h : (gradeSubmission s caller now aid st0 v).2 = none) :
    caller = s.teacher ∧ (s.assignments aid).deadline > 0 ∧
    now ≥ (s.assignments aid).deadline ∧
    (s.submissions aid st0).exists' = true ∧
    (s.grades aid st0).exists' = false ∧ v.proofValid = true := by
  by_cases h1 : caller = s.teacher
  case neg => rw [gradeSubmission_unauth s caller now aid st0 v h1] at h; cases h
  by_cases h2 : (s.assignments aid).deadline > 0
  case neg => rw [gradeSubmission_notfound s caller now aid st0 v h1 h2] at h; cases h
  by_cases h3 : now ≥ (s.assignments aid).deadline
  case neg => rw [gradeSubmission_notopen s caller now aid st0 v h1 h2 h3] at h; cases h
  by_cases h4 : (s.submissions aid st0).exists' = true
  case neg => rw [gradeSubmission_nosub s caller now aid st0 v h1 h2 h3 h4] at h; cases h
  by_cases h5 : (s.grades aid st0).exists' = true
  case pos => rw [gradeSubmission_already s caller now aid st0 v h1 h2 h3 h4 h5] at h; cases h
  have h5' : (s.grades aid st0).exists' = false := by
    cases hb : (s.grades aid st0).exists'
    · rfl
    · exact absurd hb h5
  by_cases h6 : v.proofValid = true
  case neg =>
    have h6' : v.proofValid = false := by
      cases hb : v.proofValid
      · rfl
      · exact absurd hb h6
    rw [gradeSubmission_badproof s caller now aid st0 v h1 h2 h3 h4 h5' h6'] at h
    cases h
  exact ⟨h1, h2, h3, h4, h5', h6⟩

/-- Operation `createAssignment` never touches submissions, grades or the record of an
id other than the one it allocates. -/
theorem createAssignment_frame (s : SysState) (caller now : Nat)
    (title requirements : String) (deadline : Nat) :
    (createAssignment s caller now title requirements deadline).1.submissions
        = s.submissions ∧
    (createAssignment s caller now title requirements deadline).1.grades = s.grades ∧
    ∀ a, a ≠ s.totalAssignments →
      (createAssignment s caller now title requirements deadline).1.assignments a
        = s.assignments a := by
  by_cases h1 : caller = s.teacher
  · by_cases h2 : deadline > now
    · by_cases h3 : title.length > 0
      · rw [createAssignment_success s caller now title requirements deadline h1 h2 h3]
        refine ⟨rfl, rfl, fun a ha => ?_⟩
        simp [ha]
      · rw [createAssignment_emptytitle s caller now title requirements deadline h1 h2 h3]
        exact ⟨rfl, rfl, fun a _ => rfl⟩
    · rw [createAssignment_baddeadline s caller now title requirements deadline h1 h2]
      exact ⟨rfl, rfl, fun a _ => rfl⟩
  · rw [createAssignment_unauth s caller now title requirements deadline h1]
    exact ⟨rfl, rfl, fun a _ => rfl⟩

/-- Operation `submitAssignment` never touches grades, the counter, the deadline or
teacher of any assignment, nor an already-stored submission. -/
theorem submitAssignment_frame (s : SysState) (caller now aid : Nat)
    (v : ExternalEuint32) :
    (submitAssignment s caller now aid v).1.grades = s.grades ∧
    (submitAssignment s caller now aid v).1.totalAssignments = s.totalAssignments ∧
    (∀ a, ((submitAssignment s caller now aid v).1.assignments a).deadline
            = (s.assignments a).deadline ∧
          ((submitAssignment s caller now aid v).1.assignments a).teacher
            = (s.assignments a).teacher) ∧
    ∀ a st, (s.submissions a st).exists' = true →
      (submitAssignment s caller now aid v).1.submissions a st
        = s.submissions a st := by
  by_cases h1 : caller = s.teacher
  case pos =>
    rw [submitAssignment_self s caller now aid v h1]
    exact ⟨rfl, rfl, fun a => ⟨rfl, rfl⟩, fun a st _ => rfl⟩
  by_cases h2 : (s.assignments aid).deadline > 0
  case neg =>
    rw [submitAssignment_notfound s caller now aid v h1 h2]
    exact ⟨rfl, rfl, fun a => ⟨rfl, rfl⟩, fun a st _ => rfl⟩
  by_cases h3 : now < (s.assignments aid).deadline
  case neg =>
    rw [submitAssignment_deadline s caller now aid v h1 h2 h3]
    exact ⟨rfl, rfl, fun a => ⟨rfl, rfl⟩, fun a st _ => rfl⟩
  by_cases h4 : (s.submissions aid caller).exists' = true
  case pos =>
    rw [submitAssignment_already s caller now aid v h1 h2 h3 h4]
    exact ⟨rfl, rfl, fun a => ⟨rfl, rfl⟩, fun a st _ => rfl⟩
  have h4' : (s.submissions aid caller).exists' = false := by
    cases hb : (s.submissions aid caller).exists'
    · rfl
    · exact absurd hb h4
  by_cases h5 : v.proofValid = true
  case neg =>
    have h5' : v.proofValid = false := by
      cases hb : v.proofValid
      · rfl
      · exact absurd hb h5
    rw [submitAssignment_badproof s caller now aid v h1 h2 h3 h4' h5']
    exact ⟨rfl, rfl, fun a => ⟨rfl, rfl⟩, fun a st _ => rfl⟩
  rw [submitAssignment_success s caller now aid v h1 h2 h3 h4' h5]
  refine ⟨rfl, rfl, fun a => ?_, fun a st hex => ?_⟩
  · by_cases he : a = aid
    · subst he
      simp
    · simp [he]
  · have hne : ¬ (a = aid ∧ st = caller) := by
      rintro ⟨hea, hes⟩
      subst hea
      subst hes
      rw [hex] at h4'
      cases h4'
    simp [hne]

/-- Operation `startGrading` never touches submissions, grades, the counter, or the
deadline, teacher and count of any assignment. -/
theorem startGrading_frame (s : SysState) (caller now aid : Nat) :
    (startGrading s caller now aid).1.submissions = s.submissions ∧
    (startGrading s caller now aid).1.grades = s.grades ∧
    (startGrading s caller now aid).1.totalAssignments = s.totalAssignments ∧
    ∀ a, ((startGrading s caller now aid).1.assignments a).deadline
            = (s.assignments a).deadline ∧
         ((startGrading s caller now aid).1.assignments a).teacher
            = (s.assignments a).teacher ∧
         ((startGrading s caller now aid).1.assignments a).submissionCount
            = (s.assignments a).submissionCount := by
  by_cases h1 : caller = s.teacher
  case neg =>
    rw [startGrading_unauth s caller now aid h1]
    exact ⟨rfl, rfl, rfl, fun a => ⟨rfl, rfl, rfl⟩⟩
  by_cases h2 : (s.assignments aid).deadline > 0
  case neg =>
    rw [startGrading_notfound s caller now aid h1 h2]
    exact ⟨rfl, rfl, rfl, fun a => ⟨rfl, rfl, rfl⟩⟩
  by_cases h3 : now ≥ (s.assignments aid).deadline
  case neg =>
    rw [startGrading_early s caller now aid h1 h2 h3]
    exact ⟨rfl, rfl, rfl, fun a => ⟨rfl, rfl, rfl⟩⟩
  by_cases h4 : (s.assignments aid).isGrading = true
  case pos =>
    rw [startGrading_twice s caller now aid h1 h2 h3 h4]
    exact ⟨rfl, rfl, rfl, fun a => ⟨rfl, rfl, rfl⟩⟩
  have h4' : (s.assignments aid).isGrading = false := by
    cases hb : (s.assignments aid).isGrading
    · rfl
    · exact absurd hb h4
  rw [startGrading_success s caller now aid h1 h2 h3 h4']
  refine ⟨rfl, rfl, rfl, fun a => ?_⟩
  by_cases he : a = aid
  · subst he
    simp
  · simp [he]

/-- Operation `gradeSubmission` never touches submissions, assignments, the counter, or
an already-stored grade. -/
theorem gradeSubmission_frame (s : SysState) (caller now aid st0 : Nat)
    (v : ExternalEuint32) :
    (gradeSubmission s caller now aid st0 v).1.submissions = s.submissions ∧
    (gradeSubmission s caller now aid st0 v).1.assignments = s.assignments ∧
    (gradeSubmission s caller now aid st0 v).1.totalAssignments
        = s.totalAssignments ∧
    ∀ a st, (s.grades a st).exists' = true →
      (gradeSubmission s caller now aid st0 v).1.grades a st = s.grades a st := by
  by_cases h1 : caller = s.teacher
  case neg =>
    rw [gradeSubmission_unauth s caller now aid st0 v h1]
    exact ⟨rfl, rfl, rfl, fun a st _ => rfl⟩
  by_cases h2 : (s.assignments aid).deadline > 0
  case neg =>
    rw [gradeSubmission_notfound s caller now aid st0 v h1 h2]
    exact ⟨rfl, rfl, rfl, fun a st _ => rfl⟩
  by_cases h3 : now ≥ (s.assignments aid).deadline
  case neg =>
    rw [gradeSubmission_notopen s caller now aid st0 v h1 h2 h3]
    exact ⟨rfl, rfl, rfl, fun a st _ => rfl⟩
  by_cases h4 : (s.submissions aid st0).exists' = true
  case neg =>
    rw [gradeSubmission_nosub s caller now aid st0 v h1 h2 h3 h4]
    exact ⟨rfl, rfl, rfl, fun a st _ => rfl⟩
  by_cases h5 : (s.grades aid st0).exists' = true
  case pos =>
    rw [gradeSubmission_already s caller now aid st0 v h1 h2 h3 h4 h5]
    exact ⟨rfl, rfl, rfl, fun a st _ => rfl⟩
  have h5' : (s.grades aid st0).exists' = false := by
    cases hb : (s.grades aid st0).exists'
    · rfl
    · exact absurd hb h5
  by_cases h6 : v.proofValid = true
  case neg =>
    have h6' : v.proofValid = false := by
      cases hb : v.proofValid
      · rfl
      · exact absurd hb h6
    rw [gradeSubmission_badproof s caller now aid st0 v h1 h2 h3 h4 h5' h6']
    exact ⟨rfl, rfl, rfl, fun a st _ => rfl⟩
  rw [gradeSubmission_success s caller now aid st0 v h1 h2 h3 h4 h5' h6]
  refine ⟨rfl, rfl, rfl, fun a st hex => ?_⟩
  have hne : ¬ (a = aid ∧ st = st0) := by
    rintro ⟨hea, hes⟩
    subst hea
    subst hes
    rw [hex] at h5'
    cases h5'
  simp [hne]

/-! ## Reachability

A state is reachable when it arises from the deployed contract by a sequence
of external calls.  `Reachable d t s` carries the current block timestamp
bound `t`: calls execute at the current time and `tick` moves time forward,
mirroring the chain's monotone `block.timestamp`. -/

/-- Reachability of contract states from deployment by `deployer`, indexed by
the current block-timestamp bound. -/
inductive Reachable (deployer : Nat) : Nat → SysState → Prop where
  | init : Reachable deployer 0 (initState deployer)
  | tick {t t' : Nat} {s : SysState} : Reachable deployer t s → t ≤ t' →
      Reachable deployer t' s
  | create {t : Nat} {s : SysState} (caller : Nat) (title requirements : String)
      (deadline : Nat) : Reachable deployer t s →
      Reachable deployer t (createAssignment s caller t title requirements deadline).1
  | submit {t : Nat} {s : SysState} (caller aid : Nat) (v : ExternalEuint32) :
      Reachable deployer t s →
      Reachable deployer t (submitAssignment s caller t aid v).1
  | start {t : Nat} {s : SysState} (caller aid : Nat) : Reachable deployer t s →
      Reachable deployer t (startGrading s caller t aid).1
  | grade {t : Nat} {s : SysState} (caller aid st0 : Nat) (v : ExternalEuint32) :
      Reachable deployer t s →
      Reachable deployer t (gradeSubmission s caller t aid st0 v).1

/-- Every reachable state satisfies the inductive invariant. -/
theorem reachable_inv {d t : Nat} {s : SysState} (h : Reachable d t s) :
    ContractInv d t s := by
  induction h with
  | init => exact initState_inv d 0
  | tick h ht ih => exact inv_tick ih ht
  | create caller title requirements deadline h ih =>
      exact createAssignment_inv ih caller _ title requirements deadline
  | submit caller aid v h ih => exact submitAssignment_inv ih caller aid v le_rfl
  | start caller aid h ih => exact startGrading_inv ih caller _ aid
  | grade caller aid st0 v h ih => exact gradeSubmission_inv ih caller aid st0 v le_rfl

/-! ## Arbitrary call sequences and persistence -/

/-- One external call with arbitrary caller, time and arguments. -/
inductive Step (s : SysState) : SysState → Prop where
  | create (caller now : Nat) (title requirements : String) (deadline : Nat) :
      Step s (createAssignment s caller now title requirements deadline).1
  | submit (caller now aid : Nat) (v : ExternalEuint32) :
      Step s (submitAssignment s caller now aid v).1
  | start (caller now aid : Nat) : Step s (startGrading s caller now aid).1
  | grade (caller now aid st0 : Nat) (v : ExternalEuint32) :
      Step s (gradeSubmission s caller now aid st0 v).1

/-- Along any sequence of calls, a stored submission and a stored grade are
never removed or overwritten. -/
theorem steps_persist {s s' : SysState} (h : Relation.ReflTransGen Step s s')
    (a st : Nat) :
    ((s.submissions a st).exists' = true →
      s'.submissions a st = s.submissions a st) ∧
    ((s.grades a st).exists' = true → s'.grades a st = s.grades a st) := by
  induction h with
  | refl => exact ⟨fun _ => rfl, fun _ => rfl⟩
  | tail hsteps hstep ih =>
    obtain ⟨ihs, ihg⟩ := ih
    constructor
    · intro hex
      have hmid := ihs hex
      cases hstep with
      | create caller now title requirements deadline =>
          rw [congrFun (congrFun (createAssignment_frame _ caller now title
            requirements deadline).1 a) st, hmid]
      | submit caller now aid v =>
          rw [(submitAssignment_frame _ caller now aid v).2.2.2 a st
            (by rw [hmid, hex]), hmid]
      | start caller now aid =>
          rw [congrFun (congrFun (startGrading_frame _ caller now aid).1 a) st, hmid]
      | grade caller now aid st0 v =>
          rw [congrFun (congrFun (gradeSubmission_frame _ caller now aid st0 v).1 a)
            st, hmid]
    · intro hex
      have hmid := ihg hex
      cases hstep with
      | create caller now title requirements deadline =>
          rw [congrFun (congrFun (createAssignment_frame _ caller now title
            requirements deadline).2.1 a) st, hmid]
      | submit caller now aid v =>
          rw [congrFun (congrFun (submitAssignment_frame _ caller now aid v).1 a)
            st, hmid]
      | start caller now aid =>
          rw [congrFun (congrFun (startGrading_frame _ caller now aid).2.1 a) st, hmid]
      | grade caller now aid st0 v =>
          rw [(gradeSubmission_frame _ caller now aid st0 v).2.2.2 a st
            (by rw [hmid, hex]), hmid]

/-! ## The grading latch is independent of grading -/

/-- State `s` with assignment `a'`'s `isGrading` latch forced to `b`; everything
else unchanged.  Used to state that `gradeSubmission` never reads the latch. -/
def setGradingFlag (s : SysState) (a' : Nat) (b : Bool) : SysState :=
  { s with assignments := fun a =>
      if a = a' then { s.assignments a with isGrading := b } else s.assignments a }

/-- The outcome of `gradeSubmission` is unchanged by forcing any assignment's
`isGrading` latch to any value: the latch is not a precondition of grading. -/
theorem gradeSubmission_latch_free (s : SysState) (caller now aid st0 a' : Nat)
    (v : ExternalEuint32) (b : Bool) :
    (gradeSubmission (setGradingFlag s a' b) caller now aid st0 v).2
      = (gradeSubmission s caller now aid st0 v).2 := by
  have hdl : ((setGradingFlag s a' b).assignments aid).deadline
      = (s.assignments aid).deadline := by
    by_cases he : aid = a' <;> simp [setGradingFlag, he]
  have hteach : (setGradingFlag s a' b).teacher = s.teacher := rfl
  by_cases h1 : caller = s.teacher
  case neg =>
    rw [gradeSubmission_unauth s caller now aid st0 v h1,
        gradeSubmission_unauth (setGradingFlag s a' b) caller now aid st0 v
          (by rw [hteach]; exact h1)]
  by_cases h2 : (s.assignments aid).deadline > 0
  case neg =>
    rw [gradeSubmission_notfound s caller now aid st0 v h1 h2,
        gradeSubmission_notfound (setGradingFlag s a' b) caller now aid st0 v
          (by rw [hteach]; exact h1) (by rw [hdl]; exact h2)]
  by_cases h3 : now ≥ (s.assignments aid).deadline
  case neg =>
    rw [gradeSubmission_notopen s caller now aid st0 v h1 h2 h3,
        gradeSubmission_notopen (setGradingFlag s a' b) caller now aid st0 v
          (by rw [hteach]; exact h1) (by rw [hdl]; exact h2) (by rw [hdl]; exact h3)]
  by_cases h4 : (s.submissions aid st0).exists' = true
  case neg =>
    rw [gradeSubmission_nosub s caller now aid st0 v h1 h2 h3 h4,
        gradeSubmission_nosub (setGradingFlag s a' b) caller now aid st0 v
          (by rw [hteach]; exact h1) (by rw [hdl]; exact h2) (by rw [hdl]; exact h3) h4]
  by_cases h5 : (s.grades aid st0).exists' = true
  case pos =>
    rw [gradeSubmission_already s caller now aid st0 v h1 h2 h3 h4 h5,
        gradeSubmission_already (setGradingFlag s a' b) caller now aid st0 v
          (by rw [hteach]; exact h1) (by rw [hdl]; exact h2) (by rw [hdl]; exact h3)
          h4 h5]
  have h5' : (s.grades aid st0).exists' = false := by
    cases hb : (s.grades aid st0).exists'
    · rfl
    · exact absurd hb h5
  by_cases h6 : v.proofValid = true
  case neg =>
    have h6' : v.proofValid = false := by
      cases hb : v.proofValid
      · rfl
      · exact absurd hb h6
    rw [gradeSubmission_badproof s caller now aid st0 v h1 h2 h3 h4 h5' h6',
        gradeSubmission_badproof (setGradingFlag s a' b) caller now aid st0 v
          (by rw [hteach]; exact h1) (by rw [hdl]; exact h2) (by rw [hdl]; exact h3)
          h4 h5' h6']
  rw [gradeSubmission_success s caller now aid st0 v h1 h2 h3 h4 h5' h6,
      gradeSubmission_success (setGradingFlag s a' b) caller now aid st0 v
        (by rw [hteach]; exact h1) (by rw [hdl]; exact h2) (by rw [hdl]; exact h3)
        h4 h5' h6]

/-! ## A concrete trace, used by the witnesses

Deployment by address 7; assignment 0 with deadline 100 created at time 0;
student 1 submits at time 50; the teacher grades student 1 at time 150. -/

/-- The deployed contract, teacher address 7. -/
def exampleState0 : SysState := initState 7

/-- After the teacher creates assignment 0 (deadline 100) at time 0. -/
def exampleState1 : SysState :=
  (createAssignment exampleState0 7 0 "hw1" "essay" 100).1

/-- After student 1 submits to assignment 0 at time 50. -/
def exampleState2 : SysState :=
  (submitAssignment exampleState1 1 50 0 ⟨42, true⟩).1

/-- After the teacher grades student 1 on assignment 0 at time 150. -/
def exampleState3 : SysState :=
  (gradeSubmission exampleState2 7 150 0 1 ⟨90, true⟩).1

theorem exampleState1_reachable : Reachable 7 0 exampleState1 :=
  Reachable.create 7 "hw1" "essay" 100 Reachable.init

theorem exampleState2_reachable : Reachable 7 50 exampleState2 :=
  Reachable.submit 1 0 ⟨42, true⟩
    (Reachable.tick exampleState1_reachable (by omega))

theorem exampleState3_reachable : Reachable 7 150 exampleState3 :=
  Reachable.grade 7 0 1 ⟨90, true⟩
    (Reachable.tick exampleState2_reachable (by omega))

example : (exampleState2.submissions 0 1).exists' = true := by decide

example : (exampleState2.assignments 0).deadline = 100 := by decide

example : (exampleState3.grades 0 1).exists' = true := by decide

/-! ## The claims -/

/-- C8 counterexample: the creator calling `submitAssignment` on a
nonexistent assignment gets `SelfSubmissionForbidden`, not `NotFound` as the
claim states — the `onlyStudent` modifier runs before the existence check. -/
theorem submit_order_modifier_first_cex :
    (submitAssignment (initState 7) 7 0 5 ⟨1, true⟩).2
        = some Err.SelfSubmissionForbidden ∧
    some Err.SelfSubmissionForbidden ≠ some Err.NotFound := by
  decide

/-- C8 (amended): `submitAssignment` reports the first failed check in this
order: caller-is-not-the-teacher (`SelfSubmissionForbidden`, from the
`onlyStudent` modifier, which runs before the body), assignment existence
(`NotFound`), deadline (`DeadlinePassed`), no prior submission
(`AlreadySubmitted`); in particular the creator calling on a nonexistent
assignment gets `SelfSubmissionForbidden`. -/
theorem submit_check_order (s : SysState) (caller now aid : Nat)
    (v : ExternalEuint32) :
    (caller = s.teacher →
       submitAssignment s caller now aid v
         = (s, some Err.SelfSubmissionForbidden)) ∧
    (caller ≠ s.teacher → ¬ (s.assignments aid).deadline > 0 →
       submitAssignment s caller now aid v = (s, some Err.NotFound)) ∧
    (caller ≠ s.teacher → (s.assignments aid).deadline > 0 →
       (s.assignments aid).deadline ≤ now →
       submitAssignment s caller now aid v = (s, some Err.DeadlinePassed)) ∧
    (caller ≠ s.teacher → (s.assignments aid).deadline > 0 →
       now < (s.assignments aid).deadline →
       (s.submissions aid caller).exists' = true →
       submitAssignment s caller now aid v = (s, some Err.AlreadySubmitted)) := by
  refine ⟨fun h1 => submitAssignment_self s caller now aid v h1,
    fun h1 h2 => submitAssignment_notfound s caller now aid v h1 h2,
    fun h1 h2 h3 => submitAssignment_deadline s caller now aid v h1 h2 (by omega),
    fun h1 h2 h3 h4 => submitAssignment_already s caller now aid v h1 h2 h3 h4⟩

/-- C8 witness: the teacher (deployer 7) calling `submitAssignment` on the
unallocated assignment 5 of the deployed contract. -/
theorem submit_check_order_witness :
    submitAssignment (initState 7) 7 0 5 ⟨1, true⟩
      = (initState 7, some Err.SelfSubmissionForbidden) :=
  (submit_check_order (initState 7) 7 0 5 ⟨1, true⟩).1 (by decide)

/-- C9: every mutating operation is all-or-nothing — whenever it reports an
error (`InvalidProof` from ciphertext ingestion included), the returned state,
its FHE grants included, is exactly the state before the call. -/
theorem operations_atomic (s : SysState) :
    (∀ caller now title requirements deadline e,
       (createAssignment s caller now title requirements deadline).2 = some e →
       (createAssignment s caller now title requirements deadline).1 = s) ∧
    (∀ caller now aid v e, (submitAssignment s caller now aid v).2 = some e →
       (submitAssignment s caller now aid v).1 = s) ∧
    (∀ caller now aid e, (startGrading s caller now aid).2 = some e →
       (startGrading s caller now aid).1 = s) ∧
    (∀ caller now aid st0 v e, (gradeSubmission s caller now aid st0 v).2 = some e →
       (gradeSubmission s caller now aid st0 v).1 = s) := by
  refine ⟨?_, ?_, ?_, ?_⟩
  · intro caller now title requirements deadline e he
    exact createAssignment_fail s caller now title requirements deadline
      (by rw [he]; simp)
  · intro caller now aid v e he
    exact submitAssignment_fail s caller now aid v (by rw [he]; simp)
  · intro caller now aid e he
    exact startGrading_fail s caller now aid (by rw [he]; simp)
  · intro caller now aid st0 v e he
    exact gradeSubmission_fail s caller now aid st0 v (by rw [he]; simp)

/-- C9 witness: a submission with an invalid input proof on the live
assignment 0 fails with `InvalidProof` and leaves the state untouched. -/
theorem operations_atomic_witness :
    (submitAssignment exampleState1 1 50 0 ⟨5, false⟩).1 = exampleState1 :=
  (operations_atomic exampleState1).2.1 1 50 0 ⟨5, false⟩ Err.InvalidProof (by decide)

/-- C10: every reachable state has the single teacher fixed at deployment,
every existing assignment's `teacher` (creator) field equals that teacher,
and hence the caller-vs-global-teacher checks of the contract coincide with
caller-vs-creator checks. -/
theorem single_teacher_invariant {d t : Nat} {s : SysState} (h : Reachable d t s) :
    s.teacher = d ∧
    (∀ a, (s.assignments a).deadline > 0 → (s.assignments a).teacher = d) ∧
    (∀ a caller, (s.assignments a).deadline > 0 →
       (caller = (s.assignments a).teacher ↔ caller = s.teacher)) := by
  have hInv := reachable_inv h
  refine ⟨hInv.teacher_eq, hInv.asg_teacher, fun a caller ha => ?_⟩
  rw [hInv.asg_teacher a ha, hInv.teacher_eq]

/-- C10 witness: in the example state the global teacher and assignment 0's
creator agree (both address 7). -/
theorem single_teacher_invariant_witness :
    exampleState1.teacher = 7 ∧ (exampleState1.assignments 0).teacher = 7 :=
  ⟨(single_teacher_invariant exampleState1_reachable).1,
   (single_teacher_invariant exampleState1_reachable).2.1 0 (by decide)⟩

/-- C2: in every reachable state a grade exists only if a submission for the
same key exists with a strictly earlier timestamp, and grading a student with
no stored submission (teacher caller, existing assignment, deadline passed)
fails with `NoSubmission`. -/
theorem grade_implies_prior_submission {d t : Nat} {s : SysState}
    (h : Reachable d t s) :
    (∀ a st, (s.grades a st).exists' = true →
       (s.submissions a st).exists' = true ∧
       (s.submissions a st).timestamp < (s.grades a st).timestamp) ∧
    (∀ a st now v, (s.assignments a).deadline > 0 →
       now ≥ (s.assignments a).deadline → (s.submissions a st).exists' = false →
       gradeSubmission s s.teacher now a st v = (s, some Err.NoSubmission)) := by
  have hInv := reachable_inv h
  constructor
  · intro a st hg
    have hs := hInv.grade_sub a st hg
    exact ⟨hs, lt_of_lt_of_le (hInv.sub_deadline a st hs)
      (hInv.grade_deadline a st hg)⟩
  · intro a st now v h2 h3 h4
    exact gradeSubmission_nosub s s.teacher now a st v rfl h2 h3 (by simp [h4])

/-- C2 witness: in the example trace the submission (time 50) strictly
precedes the grade (time 150), and grading the never-submitting student 2
fails with `NoSubmission`. -/
theorem grade_implies_prior_submission_witness :
    (exampleState3.submissions 0 1).exists' = true ∧
    (exampleState3.submissions 0 1).timestamp < (exampleState3.grades 0 1).timestamp ∧
    gradeSubmission exampleState2 exampleState2.teacher 150 0 2 ⟨1, true⟩
      = (exampleState2, some Err.NoSubmission) :=
  ⟨((grade_implies_prior_submission exampleState3_reachable).1 0 1 (by decide)).1,
   ((grade_implies_prior_submission exampleState3_reachable).1 0 1 (by decide)).2,
   (grade_implies_prior_submission exampleState2_reachable).2 0 2 150 ⟨1, true⟩
     (by decide) (by decide) (by decide)⟩

/-- C4: for an existing assignment, a non-creator caller with no prior
submission and a valid input proof: `submitAssignment` fails with
`DeadlinePassed` for every `now ≥ deadline` and succeeds for every
`now < deadline`. -/
theorem submit_deadline_boundary {d t : Nat} {s : SysState} (h : Reachable d t s)
    (caller now a : Nat) (v : ExternalEuint32)
    (hex : (s.assignments a).deadline > 0)
    (hc : caller ≠ (s.assignments a).teacher)
    (hns : (s.submissions a caller).exists' = false)
    (hp : v.proofValid = true) :
    ((s.assignments a).deadline ≤ now →
       submitAssignment s caller now a v = (s, some Err.DeadlinePassed)) ∧
    (now < (s.assignments a).deadline →
       (submitAssignment s caller now a v).2 = none) := by
  have hInv := reachable_inv h
  have h1 : caller ≠ s.teacher := by
    rw [hInv.asg_teacher a hex] at hc
    rw [hInv.teacher_eq]
    exact hc
  constructor
  · intro hd
    exact submitAssignment_deadline s caller now a v h1 hex (by omega)
  · intro hd
    rw [submitAssignment_success s caller now a v h1 hex hd hns hp]

/-- C4 witness: the boundary on assignment 0 (deadline 100): submitting at
`now = 100` fails with `DeadlinePassed`, at `now = 99` succeeds. -/
theorem submit_deadline_boundary_witness :
    submitAssignment exampleState1 1 100 0 ⟨42, true⟩
      = (exampleState1, some Err.DeadlinePassed) ∧
    (submitAssignment exampleState1 1 99 0 ⟨42, true⟩).2 = none :=
  ⟨(submit_deadline_boundary exampleState1_reachable 1 100 0 ⟨42, true⟩ (by decide)
      (by decide) (by decide) (by decide)).1 (by decide),
   (submit_deadline_boundary exampleState1_reachable 1 99 0 ⟨42, true⟩ (by decide)
      (by decide) (by decide) (by decide)).2 (by decide)⟩

/-- C5: for an existing assignment with the creator as caller,
`gradeSubmission` fails with `GradingNotOpen` for every `now < deadline`;
for any `now ≥ deadline` it succeeds for a submitted, not-yet-graded student
with a valid proof; its outcome is unchanged by forcing the `isGrading` latch
to either value (the latch is not a precondition); and after one success every
repeat at `now' ≥ deadline` fails with `AlreadyGraded`. -/
theorem grade_open_at_deadline_latch_free {d t : Nat} {s : SysState}
    (h : Reachable d t s) (caller now a st0 : Nat) (v : ExternalEuint32)
    (hex : (s.assignments a).deadline > 0)
    (hc : caller = (s.assignments a).teacher) :
    (now < (s.assignments a).deadline →
       gradeSubmission s caller now a st0 v = (s, some Err.GradingNotOpen)) ∧
    ((s.assignments a).deadline ≤ now → (s.submissions a st0).exists' = true →
       (s.grades a st0).exists' = false → v.proofValid = true →
       (gradeSubmission s caller now a st0 v).2 = none) ∧
    (∀ (b : Bool), (gradeSubmission (setGradingFlag s a b) caller now a st0 v).2
        = (gradeSubmission s caller now a st0 v).2) ∧
    ((s.assignments a).deadline ≤ now → (s.submissions a st0).exists' = true →
       (s.grades a st0).exists' = false → v.proofValid = true →
       ∀ now' v', (s.assignments a).deadline ≤ now' →
         gradeSubmission (gradeSubmission s caller now a st0 v).1 caller now' a st0 v'
           = ((gradeSubmission s caller now a st0 v).1, some Err.AlreadyGraded)) := by
  have hInv := reachable_inv h
  have h1 : caller = s.teacher := by
    rw [hInv.asg_teacher a hex] at hc
    rw [hInv.teacher_eq]
    exact hc
  refine ⟨?_, ?_, ?_, ?_⟩
  · intro hd
    exact gradeSubmission_notopen s caller now a st0 v h1 hex (by omega)
  · intro hd hsub hgr hp
    rw [gradeSubmission_success s caller now a st0 v h1 hex hd hsub hgr hp]
  · intro b
    exact gradeSubmission_latch_free s caller now a st0 a v b
  · intro hd hsub hgr hp now' v' hd'
    rw [gradeSubmission_success s caller now a st0 v h1 hex hd hsub hgr hp]
    dsimp only
    exact gradeSubmission_already _ caller now' a st0 v' h1 hex hd' hsub (by simp)

/-- C5 witness: on the submitted-but-ungraded example state, grading at time
90 fails with `GradingNotOpen`, at 150 succeeds, and the outcome at 150 is
the same with the latch forced on. -/
theorem grade_open_at_deadline_latch_free_witness :
    gradeSubmission exampleState2 7 90 0 1 ⟨90, true⟩
      = (exampleState2, some Err.GradingNotOpen) ∧
    (gradeSubmission exampleState2 7 150 0 1 ⟨90, true⟩).2 = none ∧
    (gradeSubmission (setGradingFlag exampleState2 0 true) 7 150 0 1 ⟨90, true⟩).2
      = (gradeSubmission exampleState2 7 150 0 1 ⟨90, true⟩).2 :=
  ⟨(grade_open_at_deadline_latch_free exampleState2_reachable 7 90 0 1 ⟨90, true⟩
      (by decide) (by decide)).1 (by decide),
   (grade_open_at_deadline_latch_free exampleState2_reachable 7 150 0 1 ⟨90, true⟩
      (by decide) (by decide)).2.1 (by decide) (by decide) (by decide) (by decide),
   (grade_open_at_deadline_latch_free exampleState2_reachable 7 150 0 1 ⟨90, true⟩
      (by decide) (by decide)).2.2.1 true⟩

/-- C6: in every reachable state, a `submitAssignment` call by an existing
assignment's creator fails with `SelfSubmissionForbidden` with the state
unchanged, whatever the time, and the creator never holds a submission for
their own assignment. -/
theorem creator_cannot_submit {d t : Nat} {s : SysState} (h : Reachable d t s)
    (a : Nat) (hex : (s.assignments a).deadline > 0) :
    (∀ now v, submitAssignment s ((s.assignments a).teacher) now a v
        = (s, some Err.SelfSubmissionForbidden)) ∧
    (s.submissions a ((s.assignments a).teacher)).exists' = false := by
  have hInv := reachable_inv h
  have hcr : (s.assignments a).teacher = s.teacher := by
    rw [hInv.asg_teacher a hex, hInv.teacher_eq]
  constructor
  · intro now v
    exact submitAssignment_self s _ now a v hcr
  · cases hb : (s.submissions a ((s.assignments a).teacher)).exists'
    · rfl
    · exfalso
      have hne := hInv.sub_not_teacher a _ hb
      rw [hcr, hInv.teacher_eq] at hne
      exact hne rfl

/-- C6 witness: the creator of assignment 0 (address 7) cannot submit to it
and holds no submission for it. -/
theorem creator_cannot_submit_witness :
    submitAssignment exampleState1 (exampleState1.assignments 0).teacher 10 0 ⟨3, true⟩
      = (exampleState1, some Err.SelfSubmissionForbidden) ∧
    (exampleState1.submissions 0 (exampleState1.assignments 0).teacher).exists'
      = false :=
  ⟨(creator_cannot_submit exampleState1_reachable 0 (by decide)).1 10 ⟨3, true⟩,
   (creator_cannot_submit exampleState1_reachable 0 (by decide)).2⟩

/-- C7 counterexample: on the deployed contract, where no records exist, the
submission and grade getters do not fail with `NotFound` — they return the
zero default record with `exists = false`. -/
theorem getters_return_default_cex :
    getSubmission (initState 7) 0 1 = (0, 0, false) ∧
    getGrade (initState 7) 0 1 = (0, 0, false) := by
  decide

/-- C7 (amended): `getSubmission` and `getGrade` are total and perform no
existence check: for an absent key they return the default record
`(0, 0, false)`, for a present key a record whose `exists` component is
`true`; absence is signalled by the flag (as by `hasSubmitted`/`hasGrade`),
not by a `NotFound` failure. -/
theorem getters_total_default {d t : Nat} {s : SysState} (h : Reachable d t s)
    (a st : Nat) :
    ((s.submissions a st).exists' = false → getSubmission s a st = (0, 0, false)) ∧
    ((s.submissions a st).exists' = true → (getSubmission s a st).2.2 = true) ∧
    ((s.grades a st).exists' = false → getGrade s a st = (0, 0, false)) ∧
    ((s.grades a st).exists' = true → (getGrade s a st).2.2 = true) := by
  have hInv := reachable_inv h
  refine ⟨fun hf => ?_, fun ht => ?_, fun hf => ?_, fun ht => ?_⟩
  · simp [getSubmission, hInv.sub_default a st hf, defaultSubmission]
  · simp [getSubmission, ht]
  · simp [getGrade, hInv.grade_default a st hf, defaultGrade]
  · simp [getGrade, ht]

/-- C7 witness: on the example state, the getter returns the default record
for the never-submitting student 2 and an `exists = true` record for
student 1. -/
theorem getters_total_default_witness :
    getSubmission exampleState2 0 2 = (0, 0, false) ∧
    (getSubmission exampleState2 0 1).2.2 = true ∧
    getGrade exampleState2 0 1 = (0, 0, false) :=
  ⟨(getters_total_default exampleState2_reachable 0 2).1 (by decide),
   (getters_total_default exampleState2_reachable 0 1).2.1 (by decide),
   (getters_total_default exampleState2_reachable 0 1).2.2.1 (by decide)⟩

/-- C1 counterexample: student 1's submission to assignment 0 (deadline 100)
succeeds at time 50, yet the repeat call at time 150 fails with
`DeadlinePassed` — not `AlreadySubmitted` as the claim states, because the
deadline check runs before the duplicate check. -/
theorem resubmit_after_deadline_cex :
    (submitAssignment exampleState1 1 50 0 ⟨42, true⟩).2 = none ∧
    (submitAssignment exampleState2 1 150 0 ⟨43, true⟩).2
      = some Err.DeadlinePassed ∧
    some Err.DeadlinePassed ≠ some Err.AlreadySubmitted := by
  decide

/-- C1 (amended): per `(assignmentId, student)` pair at most one submission
and one grade ever exist: stored records are never removed or overwritten by
any sequence of calls; once a submission exists, every repeat
`submitAssignment` by that student fails — with `AlreadySubmitted` while
`now < deadline` and with `DeadlinePassed` once `now ≥ deadline` — and once a
grade exists, every later `gradeSubmission` by the teacher for the pair fails
with `AlreadyGraded`. -/
theorem submission_grade_at_most_once {d t : Nat} {s : SysState}
    (h : Reachable d t s) (a st : Nat) :
    (∀ s', Relation.ReflTransGen Step s s' →
       ((s.submissions a st).exists' = true →
         s'.submissions a st = s.submissions a st) ∧
       ((s.grades a st).exists' = true → s'.grades a st = s.grades a st)) ∧
    (∀ now v, (s.submissions a st).exists' = true →
       submitAssignment s st now a v
         = (s, some (if now < (s.assignments a).deadline then Err.AlreadySubmitted
                     else Err.DeadlinePassed))) ∧
    (∀ now v, (s.grades a st).exists' = true → t ≤ now →
       gradeSubmission s s.teacher now a st v = (s, some Err.AlreadyGraded)) := by
  have hInv := reachable_inv h
  refine ⟨fun s' hs => steps_persist hs a st, ?_, ?_⟩
  · intro now v hex
    have h1 : st ≠ s.teacher := by
      rw [hInv.teacher_eq]
      exact hInv.sub_not_teacher a st hex
    have h2 := hInv.sub_asg a st hex
    by_cases hn : now < (s.assignments a).deadline
    · rw [if_pos hn]
      exact submitAssignment_already s st now a v h1 h2 hn hex
    · rw [if_neg hn]
      exact submitAssignment_deadline s st now a v h1 h2 hn
  · intro now v hex hnow
    have h2 : (s.assignments a).deadline > 0 :=
      hInv.sub_asg a st (hInv.grade_sub a st hex)
    have h3 : now ≥ (s.assignments a).deadline :=
      le_trans (hInv.grade_deadline a st hex)
        (le_trans (hInv.grade_time a st hex) hnow)
    exact gradeSubmission_already s s.teacher now a st v rfl h2 h3
      (hInv.grade_sub a st hex) hex

/-- C1 witness: the stored submission survives the grading step unchanged, the
repeat submission at time 60 fails with `AlreadySubmitted`, and the repeat
grading at time 151 fails with `AlreadyGraded`. -/
theorem submission_grade_at_most_once_witness :
    exampleState3.submissions 0 1 = exampleState2.submissions 0 1 ∧
    submitAssignment exampleState2 1 60 0 ⟨43, true⟩
      = (exampleState2, some Err.AlreadySubmitted) ∧
    gradeSubmission exampleState3 exampleState3.teacher 151 0 1 ⟨91, true⟩
      = (exampleState3, some Err.AlreadyGraded) := by
  refine ⟨((submission_grade_at_most_once exampleState2_reachable 0 1).1
      exampleState3 (Relation.ReflTransGen.single (Step.grade 7 150 0 1 ⟨90, true⟩))).1
      (by decide), ?_, ?_⟩
  · have hres := (submission_grade_at_most_once exampleState2_reachable 0 1).2.1
      60 ⟨43, true⟩ (by decide)
    rw [(by decide : (if (60:Nat) < (exampleState2.assignments 0).deadline
        then Err.AlreadySubmitted else Err.DeadlinePassed) = Err.AlreadySubmitted)]
      at hres
    exact hres
  · exact (submission_grade_at_most_once exampleState3_reachable 0 1).2.2
      151 ⟨91, true⟩ (by decide) (by omega)

/-- C3: in every reachable state every assignment's `submissionCount` equals
the number of distinct students with a stored submission for it; a successful
`submitAssignment` increments exactly that assignment's count by one; and
`createAssignment` (on existing assignments), `startGrading` and
`gradeSubmission` never change any count. -/
theorem submissionCount_distinct_students {d t : Nat} {s : SysState}
    (h : Reachable d t s) :
    (∀ a, Set.ncard {st : Nat | (s.submissions a st).exists' = true}
        = (s.assignments a).submissionCount) ∧
    (∀ caller now aid v, (submitAssignment s caller now aid v).2 = none →
       ((submitAssignment s caller now aid v).1.assignments aid).submissionCount
           = (s.assignments aid).submissionCount + 1 ∧
       ∀ a, a ≠ aid →
         (submitAssignment s caller now aid v).1.assignments a = s.assignments a) ∧
    (∀ caller now title requirements deadline a, (s.assignments a).deadline > 0 →
       (createAssignment s caller now title requirements deadline).1.assignments a
         = s.assignments a) ∧
    (∀ caller now aid a,
       ((startGrading s caller now aid).1.assignments a).submissionCount
         = (s.assignments a).submissionCount) ∧
    (∀ caller now aid st0 v,
       (gradeSubmission s caller now aid st0 v).1.assignments = s.assignments) := by
  have hInv := reachable_inv h
  refine ⟨?_, ?_, ?_, ?_, ?_⟩
  · intro a
    obtain ⟨fs, hmem, hcard⟩ := hInv.count_eq a
    have hset : {st : Nat | (s.submissions a st).exists' = true} = ↑fs := by
      ext st
      simp only [Set.mem_setOf_eq, Finset.coe_mem, Finset.mem_coe]
      exact (hmem st).symm
    rw [hset, Set.ncard_coe_Finset, hcard]
  · intro caller now aid v hok
    obtain ⟨h1, h2, h3, h4, h5⟩ := submitAssignment_ok s caller now aid v hok
    rw [submitAssignment_success s caller now aid v h1 h2 h3 h4 h5]
    constructor
    · simp
    · intro a ha
      simp [ha]
  · intro caller now title requirements deadline a ha
    have hlt := inv_exists_lt hInv a ha
    exact (createAssignment_frame s caller now title requirements deadline).2.2 a
      (by omega)
  · intro caller now aid a
    exact ((startGrading_frame s caller now aid).2.2.2 a).2.2
  · intro caller now aid st0 v
    exact (gradeSubmission_frame s caller now aid st0 v).2.1

/-- C3 witness: on the example state the count of assignment 0 is 1 and equals
the number of submitting students; the submission that produced it bumped the
count from 0 to 1. -/
theorem submissionCount_distinct_students_witness :
    Set.ncard {st : Nat | (exampleState2.submissions 0 st).exists' = true}
      = (exampleState2.assignments 0).submissionCount ∧
    (exampleState2.assignments 0).submissionCount = 1 ∧
    ((submitAssignment exampleState1 1 50 0 ⟨42, true⟩).1.assignments 0).submissionCount
      = (exampleState1.assignments 0).submissionCount + 1 :=
  ⟨(submissionCount_distinct_students exampleState2_reachable).1 0,
   by decide,
   ((submissionCount_distinct_students exampleState1_reachable).2.1 1 50 0 ⟨42, true⟩
      (by decide)).1⟩
